import Mathlib

/-!
# Verification of the SesomNod analytic core

Shallow embedding of the core computations of the repository
(`dagens_kamp.py`, `auto_result.py`, `bankroll.py`) and proofs of the
spec claims about them.

Python machine floats are modelled as exact rationals (`ℚ`); Python's
`round(x, n)` (banker's rounding, round-half-to-even) is modelled by
`pyRound`.  Free-text pick labels are modelled as `List Char` with the
string primitives (`lower`, `strip`, `replace`, `split`, substring
test, `float()` parsing) defined structurally so that concrete pick
strings evaluate inside the kernel.
-/

namespace Sesomnod

/-- Round-half-to-even to the nearest integer, the rounding used by
Python's built-in `round`.  `⌊x⌋` when the fractional part is below
1/2, `⌊x⌋ + 1` when above, and the even neighbour on an exact tie. -/
def rhe (x : ℚ) : ℤ :=
  let f : ℤ := ⌊x⌋
  let r : ℚ := x - f
  if r < 1/2 then f
  else if 1/2 < r then f + 1
  else if f % 2 = 0 then f else f + 1

/-- Python's `round(x, nd)` for `nd ≥ 0` digits, on exact rationals. -/
def pyRound (nd : ℕ) (x : ℚ) : ℚ := (rhe (x * 10 ^ nd) : ℚ) / 10 ^ nd

theorem rhe_intCast (k : ℤ) : rhe (k : ℚ) = k := by
  simp [rhe, Int.floor_intCast]

theorem abs_rhe_sub (x : ℚ) : |(rhe x : ℚ) - x| ≤ 1/2 := by
  have h1 : (⌊x⌋ : ℚ) ≤ x := Int.floor_le x
  have h2 : x < ⌊x⌋ + 1 := Int.lt_floor_add_one x
  simp only [rhe]
  split_ifs with c1 c2 c3
  · rw [abs_le]; constructor <;> linarith
  · rw [abs_le]; push_cast; constructor <;> linarith
  · have : x - (⌊x⌋ : ℚ) = 1/2 := le_antisymm (not_lt.mp c2) (not_lt.mp c1)
    rw [abs_le]; constructor <;> linarith
  · have : x - (⌊x⌋ : ℚ) = 1/2 := le_antisymm (not_lt.mp c2) (not_lt.mp c1)
    rw [abs_le]; push_cast; constructor <;> linarith

theorem floor_le_rhe (x : ℚ) : ⌊x⌋ ≤ rhe x := by
  simp only [rhe]
  split_ifs <;> omega

theorem le_rhe {A : ℤ} {x : ℚ} (hA : (A : ℚ) ≤ x) : A ≤ rhe x :=
  le_trans (Int.le_floor.mpr hA) (floor_le_rhe x)

theorem rhe_le {B : ℤ} {x : ℚ} (hB : x ≤ (B : ℚ)) : rhe x ≤ B := by
  have hfB : ⌊x⌋ ≤ B := by
    have := Int.floor_le_floor hB
    simpa using this
  have h1 : (⌊x⌋ : ℚ) ≤ x := Int.floor_le x
  simp only [rhe]
  split_ifs with c1 c2 c3
  · exact hfB
  · rcases lt_or_eq_of_le hfB with h | h
    · omega
    · exfalso
      have hx : x = (⌊x⌋ : ℚ) := by
        rw [h]; exact le_antisymm hB (by rw [← h]; exact h1)
      rw [hx] at c2; simp at c2; linarith
  · exact hfB
  · rcases lt_or_eq_of_le hfB with h | h
    · omega
    · exfalso
      have hx : x = (⌊x⌋ : ℚ) := by
        rw [h]; exact le_antisymm hB (by rw [← h]; exact h1)
      have : x - (⌊x⌋ : ℚ) = 1/2 := le_antisymm (not_lt.mp c2) (not_lt.mp c1)
      rw [hx] at this; simp at this

theorem abs_pyRound_sub (nd : ℕ) (x : ℚ) :
    |pyRound nd x - x| ≤ 1 / (2 * 10 ^ nd) := by
  have h := abs_rhe_sub (x * 10 ^ nd)
  have hp : (0 : ℚ) < 10 ^ nd := by positivity
  have key : pyRound nd x - x = ((rhe (x * 10 ^ nd) : ℚ) - x * 10 ^ nd) / 10 ^ nd := by
    field_simp [pyRound]; ring
  rw [key, abs_div, abs_of_pos hp,
    show (1 : ℚ) / (2 * 10 ^ nd) = (1/2) / 10 ^ nd by ring,
    div_le_div_iff_of_pos_right hp]
  exact h

theorem pyRound_le {nd : ℕ} {x : ℚ} {B : ℤ} (h : x ≤ (B : ℚ) / 10 ^ nd) :
    pyRound nd x ≤ (B : ℚ) / 10 ^ nd := by
  have hp : (0 : ℚ) < 10 ^ nd := by positivity
  have hmul : x * 10 ^ nd ≤ (B : ℚ) := by
    rw [← le_div_iff₀ hp]; exact h
  have := rhe_le hmul
  rw [pyRound, div_le_div_iff_of_pos_right hp]
  exact_mod_cast this

theorem le_pyRound {nd : ℕ} {x : ℚ} {A : ℤ} (h : (A : ℚ) / 10 ^ nd ≤ x) :
    (A : ℚ) / 10 ^ nd ≤ pyRound nd x := by
  have hp : (0 : ℚ) < 10 ^ nd := by positivity
  have hmul : (A : ℚ) ≤ x * 10 ^ nd := by
    rw [← div_le_iff₀ hp]; exact h
  have := le_rhe hmul
  rw [pyRound, div_le_div_iff_of_pos_right hp]
  exact_mod_cast this

theorem rhe_eq_low (k : ℤ) (x : ℚ) (h1 : (k : ℚ) ≤ x) (h2 : x - k < 1/2) :
    rhe x = k := by
  have hf : ⌊x⌋ = k := Int.floor_eq_iff.mpr ⟨h1, by linarith⟩
  simp only [rhe, hf]
  rw [if_pos (by linarith)]

theorem rhe_eq_high (k : ℤ) (x : ℚ) (h1 : (k : ℚ) ≤ x) (h1b : x < k + 1)
    (h2 : 1/2 < x - k) : rhe x = k + 1 := by
  have hf : ⌊x⌋ = k := Int.floor_eq_iff.mpr ⟨h1, by linarith⟩
  simp only [rhe, hf]
  rw [if_neg (by linarith), if_pos (by linarith)]

theorem pyRound_eq_low (nd : ℕ) (x : ℚ) (k : ℤ) (h1 : (k : ℚ) ≤ x * 10 ^ nd)
    (h2 : x * 10 ^ nd - k < 1/2) : pyRound nd x = (k : ℚ) / 10 ^ nd := by
  rw [pyRound, rhe_eq_low k _ h1 h2]

theorem pyRound_eq_high (nd : ℕ) (x : ℚ) (k : ℤ) (h1 : (k : ℚ) ≤ x * 10 ^ nd)
    (h1b : x * 10 ^ nd < k + 1) (h2 : 1/2 < x * 10 ^ nd - k) :
    pyRound nd x = ((k : ℚ) + 1) / 10 ^ nd := by
  rw [pyRound, rhe_eq_high k _ h1 h1b h2]; push_cast; ring

theorem pyRound_natCast (nd : ℕ) (c : ℕ) : pyRound nd (c : ℚ) = c := by
  have h : (c : ℚ) * 10 ^ nd = ((c * 10 ^ nd : ℕ) : ℤ) := by push_cast; ring
  have hp : (0 : ℚ) < 10 ^ nd := by positivity
  rw [pyRound, h, rhe_intCast]
  push_cast
  field_simp

theorem pyRound_scaled_int (nd : ℕ) (k : ℤ) :
    pyRound nd ((k : ℚ) / 10 ^ nd) = (k : ℚ) / 10 ^ nd := by
  have hp : (10 : ℚ) ^ nd ≠ 0 := by positivity
  have h : (k : ℚ) / 10 ^ nd * 10 ^ nd = (k : ℚ) := by field_simp
  rw [pyRound, h, rhe_intCast]

/-! ## String primitives

The grader `determine_result` works on `pick.lower().strip()`.  We model
Python strings as `List Char` and define the primitives it uses
(`lower`, `strip`, `in` substring test, `replace`, `split`, `float()`)
structurally, so concrete pick strings reduce in the kernel. -/

/-- The characters of a string literal. -/
def chars (s : String) : List Char := s.data

/-- Python whitespace (the characters `str.strip` removes). -/
def isSpaceChar (c : Char) : Bool :=
  c = ' ' || c = '\t' || c = '\n' || c = '\r' || c = '\x0b' || c = '\x0c'

/-- Python `str.strip()`: drop whitespace from both ends. -/
def pyStrip (l : List Char) : List Char :=
  ((l.dropWhile isSpaceChar).reverse.dropWhile isSpaceChar).reverse

/-- Python `str.lower()` (ASCII letters; the pick grammar is ASCII apart
from `å`, which is already lower-case). -/
def pyLower (l : List Char) : List Char := l.map Char.toLower

/-- `isPfxOf pat l`: `pat` is a prefix of `l`. -/
def isPfxOf : List Char → List Char → Bool
  | [], _ => true
  | _ :: _, [] => false
  | a :: as', b :: bs => a = b && isPfxOf as' bs

/-- Python's `pat in s` substring test. -/
def containsSub (pat : List Char) : List Char → Bool
  | [] => isPfxOf pat []
  | c :: rest => isPfxOf pat (c :: rest) || containsSub pat rest

/-- Fuel-driven core of `eraseAll` (fuel bounds the number of steps, one
character consumed per step, so `s.length` fuel always suffices). -/
def eraseAllAux (pat : List Char) : ℕ → List Char → List Char
  | 0, s => s
  | _ + 1, [] => []
  | fuel + 1, c :: rest =>
    if isPfxOf pat (c :: rest) && !pat.isEmpty then
      eraseAllAux pat fuel ((c :: rest).drop pat.length)
    else c :: eraseAllAux pat fuel rest

/-- Python `s.replace(pat, "")`: remove every (left-to-right,
non-overlapping) occurrence of `pat`. -/
def eraseAll (pat s : List Char) : List Char := eraseAllAux pat s.length s

/-- Value of a digit string (most significant first). -/
def digitsVal (l : List Char) : ℕ :=
  l.foldl (fun acc c => acc * 10 + (c.toNat - '0'.toNat)) 0

/-- Exponent suffix of a float literal (after the `e`/`E`): an optional
sign followed by at least one digit, consuming the entire rest. -/
def parseExp (cs : List Char) : Option ℤ :=
  let p : ℤ × List Char :=
    match cs with
    | '+' :: t => (1, t)
    | '-' :: t => (-1, t)
    | _ => (1, cs)
  let ds := p.2.takeWhile (·.isDigit)
  let rest := p.2.dropWhile (·.isDigit)
  if ds.isEmpty then none
  else if rest.isEmpty then some (p.1 * digitsVal ds) else none

/-- Python `float(s)` on a stripped string, as an exact rational:
optional sign, integer part, optional `.` and fractional part (at least
one digit overall), optional exponent; anything else raises
`ValueError`, modelled as `none`.  (CPython additionally accepts
`inf`/`nan` and underscore separators, which no pick text uses.) -/
def parseFloat (l : List Char) : Option ℚ :=
  let p : ℚ × List Char :=
    match l with
    | '+' :: t => (1, t)
    | '-' :: t => (-1, t)
    | _ => (1, l)
  let ip := p.2.takeWhile (·.isDigit)
  let cs2 := p.2.dropWhile (·.isDigit)
  let q : List Char × List Char :=
    match cs2 with
    | '.' :: t => (t.takeWhile (·.isDigit), t.dropWhile (·.isDigit))
    | _ => ([], cs2)
  if ip.isEmpty && q.1.isEmpty then none
  else
    let mant : ℚ := (digitsVal ip : ℚ) + (digitsVal q.1 : ℚ) / 10 ^ q.1.length
    match q.2 with
    | [] => some (p.1 * mant)
    | 'e' :: t => (parseExp t).map (fun e => p.1 * mant * (10 : ℚ) ^ e)
    | 'E' :: t => (parseExp t).map (fun e => p.1 * mant * (10 : ℚ) ^ e)
    | _ => none

/-- Python `s.split(sep)` for a one-character separator, keeping empty
parts (so the result is always non-empty). -/
def pySplitOn (sep : Char) : List Char → List (List Char)
  | [] => [[]]
  | c :: rest =>
    let r := pySplitOn sep rest
    if c = sep then [] :: r
    else
      match r with
      | [] => [[c]]
      | p :: ps => (c :: p) :: ps

/-- Accumulator version of `pyWords`. -/
def wordsAux : List Char → List Char → List (List Char)
  | [], acc => if acc.isEmpty then [] else [acc.reverse]
  | c :: rest, acc =>
    if isSpaceChar c then
      if acc.isEmpty then wordsAux rest [] else acc.reverse :: wordsAux rest []
    else wordsAux rest (c :: acc)

/-- Python `s.split()` with no argument: split on whitespace runs,
dropping empty words. -/
def pyWords (l : List Char) : List (List Char) := wordsAux l []

/-! ## Result grader (`auto_result.determine_result`)

Each grading rule of the cascade is a partial function returning
`some "W" / some "L" / some "P"` when the rule concludes (a Python
`return`) and `none` when control falls through to the next rule. -/

/-- First-match-wins combinator for the rule cascade: the value of a
rule if it concluded, otherwise the rest of the cascade. -/
def orRes (o : Option String) (fallback : String) : String :=
  match o with
  | some r => r
  | none => fallback

theorem orRes_some (r : String) (f : String) : orRes (some r) f = r := rfl

theorem orRes_none (f : String) : orRes none f = f := rfl

/-- `pick.lower().strip()`, the normalised pick text. -/
def normalizePick (pick : String) : List Char := pyStrip (pyLower pick.data)

/-- Over rule: if `"over"` occurs, parse the line from the text with
`"over"` removed; unparsable lines fall through (`ValueError` caught). -/
def overRule (s : List Char) (total_goals : ℤ) : Option String :=
  if containsSub (chars "over") s then
    match parseFloat (pyStrip (eraseAll (chars "over") s)) with
    | some line =>
      some (if (total_goals : ℚ) > line then "W"
            else if (total_goals : ℚ) = line then "P" else "L")
    | none => none
  else none

/-- Under rule, symmetric to the over rule. -/
def underRule (s : List Char) (total_goals : ℤ) : Option String :=
  if containsSub (chars "under") s then
    match parseFloat (pyStrip (eraseAll (chars "under") s)) with
    | some line =>
      some (if (total_goals : ℚ) < line then "W"
            else if (total_goals : ℚ) = line then "P" else "L")
    | none => none
  else none

/-- BTTS rule: an English or Norwegian marker, negated by `"nei"`/`"no"`. -/
def bttsRule (s : List Char) (home_score away_score : ℤ) : Option String :=
  if containsSub (chars "btts") s || containsSub (chars "begge lag scorer") s
      || containsSub (chars "both teams") s then
    if containsSub (chars "nei") s || containsSub (chars "no") s then
      some (if home_score = 0 ∨ away_score = 0 then "W" else "L")
    else
      some (if home_score > 0 ∧ away_score > 0 then "W" else "L")
  else none

/-- Actual 1X2 result symbol of a final score. -/
def actualSymbol (home_score away_score : ℤ) : String :=
  if home_score > away_score then "1"
  else if home_score = away_score then "X" else "2"

/-- 1X2 / double-chance rule: exclusive single tokens `1`, `x`, `2`,
then composite tokens `1x`, `x2`, `12`. -/
def oneXtwoRule (s : List Char) (home_score away_score : ℤ) : Option String :=
  let actual := actualSymbol home_score away_score
  let has1 := containsSub (chars "1") s
  let hasx := containsSub (chars "x") s
  let has2 := containsSub (chars "2") s
  if has1 && !hasx && !has2 then some (if actual = "1" then "W" else "L")
  else if hasx && !has1 && !has2 then some (if actual = "X" then "W" else "L")
  else if has2 && !hasx && !has1 then some (if actual = "2" then "W" else "L")
  else if containsSub (chars "1x") s || containsSub (chars "double chance 1x") s then
    some (if actual = "1" ∨ actual = "X" then "W" else "L")
  else if containsSub (chars "x2") s || containsSub (chars "double chance x2") s then
    some (if actual = "X" ∨ actual = "2" then "W" else "L")
  else if containsSub (chars "12") s || containsSub (chars "double chance 12") s then
    some (if actual = "1" ∨ actual = "2" then "W" else "L")
  else none

/-- The handicap number the Asian-handicap rule extracts:
`pick.split("-")[-1].split("+")[0].strip().split()[0]` fed to
`float()`; any failure (`IndexError` on an empty word list,
`ValueError` from `float`) is caught, modelled by `none`. -/
def ahLineText (s : List Char) : Option (List Char) :=
  let afterMinus := (pySplitOn '-' s).getLastD []
  let beforePlus := (pySplitOn '+' afterMinus).headD []
  match pyWords (pyStrip beforePlus) with
  | [] => none
  | w :: _ => some w

/-- Asian-handicap rule: requires a `"handicap"`/`"ah"` reference and a
`"home"`/`"1"` token, then compares the handicap-adjusted home score. -/
def ahRule (s : List Char) (home_score away_score : ℤ) : Option String :=
  if containsSub (chars "handicap") s || containsSub (chars "ah") s then
    if containsSub (chars "home") s || containsSub (chars "1") s then
      match Option.bind (ahLineText s) parseFloat with
      | some hc =>
        some (if (home_score : ℚ) - hc > (away_score : ℚ) then "W"
              else if (home_score : ℚ) - hc = (away_score : ℚ) then "P" else "L")
      | none => none
    else none
  else none

/-- `auto_result.determine_result`: grade a free-text pick against a
final score, returning `"W"`, `"L"` or `"P"`.  The rule cascade runs in
source order with a `Push` fallback. -/
def determine_result (pick : String) (home_score away_score : ℤ) : String :=
  let total_goals := home_score + away_score
  let s := normalizePick pick
  orRes (overRule s total_goals)
    (orRes (underRule s total_goals)
      (orRes (bttsRule s home_score away_score)
        (orRes (oneXtwoRule s home_score away_score)
          (orRes (ahRule s home_score away_score) "P"))))

/-! ## Probability helpers (`dagens_kamp.py`) -/

/-- Result dictionary of `remove_vig`. -/
structure VigResult where
  home : ℚ
  draw : ℚ
  away : ℚ
  vig : ℚ

/-- `dagens_kamp.remove_vig`: de-margin three decimal odds into
normalized probabilities (rounded to 4 decimals) and the vig percentage
(rounded to 2 decimals). -/
def remove_vig (home_odds draw_odds away_odds : ℚ) : VigResult :=
  let raw_home := 1 / home_odds
  let raw_draw := 1 / draw_odds
  let raw_away := 1 / away_odds
  let total := raw_home + raw_draw + raw_away
  { home := pyRound 4 (raw_home / total)
    draw := pyRound 4 (raw_draw / total)
    away := pyRound 4 (raw_away / total)
    vig := pyRound 2 ((total - 1) * 100) }

/-- `dagens_kamp.implied_over25`: Over-2.5 estimate from 1X2
probabilities, clamped to `[0.28, 0.88]` and rounded to 4 decimals. -/
def implied_over25 (home_prob draw_prob away_prob : ℚ) : ℚ :=
  let decisive := home_prob + away_prob
  let draw_factor := draw_prob
  let base := 0.35 + decisive * 0.42 - draw_factor * 0.15
  pyRound 4 (min 0.88 (max 0.28 base))

/-- `dagens_kamp.implied_btts`: BTTS estimate from 1X2 probabilities,
clamped to `[0.25, 0.82]` and rounded to 4 decimals. -/
def implied_btts (home_prob draw_prob away_prob : ℚ) : ℚ :=
  let competitiveness := 1 - |home_prob - away_prob|
  let draw_bonus := draw_prob * 0.3
  let base := 0.30 + competitiveness * 0.35 + draw_bonus
  pyRound 4 (min 0.82 (max 0.25 base))

/-- Result dictionary of `implied_asian_handicap`. -/
structure AHResult where
  line : String
  home_ah : ℚ
  away_ah : ℚ
  label : String

/-- `dagens_kamp.implied_asian_handicap`: pick the most relevant AH
line from the home/away probability difference. -/
def implied_asian_handicap (home_prob away_prob : ℚ) : AHResult :=
  let diff := home_prob - away_prob
  if |diff| < 0.08 then
    { line := "0"
      home_ah := pyRound 4 (home_prob / (home_prob + away_prob))
      away_ah := pyRound 4 (away_prob / (home_prob + away_prob))
      label := "Draw No Bet" }
  else if diff > 0.08 then
    let line := if diff < 0.20 then "-0.5" else "-1"
    let adj_home := home_prob * (1 - |diff| * 0.3)
    let adj_away := 1 - adj_home
    { line := "Home " ++ line
      home_ah := pyRound 4 adj_home
      away_ah := pyRound 4 adj_away
      label := "Home " ++ line ++ " AH" }
  else
    let line := if |diff| < 0.20 then "+0.5" else "+1"
    let adj_away := away_prob * (1 - |diff| * 0.3)
    let adj_home := 1 - adj_away
    { line := "Away " ++ line
      home_ah := pyRound 4 adj_home
      away_ah := pyRound 4 adj_away
      label := "Away " ++ line ++ " AH" }

/-- `dagens_kamp.calculate_ev`: expected-value percentage. -/
def calculate_ev (true_prob offered_odds : ℚ) : ℚ :=
  pyRound 2 ((true_prob * offered_odds - 1) * 100)

/-! ## Match selection scoring (`dagens_kamp.score_match_for_selection`) -/

/-- The fields of the per-match dictionary that
`score_match_for_selection` reads (via `.get` with defaults; in the
pipeline every key is always present). -/
structure MatchData where
  true_prob_home : ℚ
  true_prob_away : ℚ
  best_ev : ℚ
  confidence : ℚ
  num_bookmakers : ℚ
  hours_to_kickoff : ℚ

/-- `dagens_kamp.score_match_for_selection`: EV term, confidence term,
bookmaker term, kickoff-window bonus/penalty, clear-favourite bonus. -/
def score_match_for_selection (m : MatchData) : ℚ :=
  let ev_term := max 0 m.best_ev * 3
  let conf_term := m.confidence * 0.5
  let bk_term := m.num_bookmakers * 2
  let time_term : ℚ :=
    if 6 ≤ m.hours_to_kickoff ∧ m.hours_to_kickoff ≤ 72 then 20
    else if m.hours_to_kickoff < 6 then -30 else 0
  let max_prob := max m.true_prob_home m.true_prob_away
  let fav_term : ℚ := if max_prob > 0.55 then 10 else 0
  ev_term + conf_term + bk_term + time_term + fav_term

/-! ## Monte Carlo simulation (`dagens_kamp.monte_carlo_match`)

The simulator draws, for each of the `n_simulations` trials, a pair of
Poisson goal counts via `_poisson_sample` and an unseeded
`random.random()`.  The draws are abstracted as `gen : ℕ → ℕ × ℕ`
(goal pair of trial `i`); quantifying over `gen` quantifies over every
possible run of the unseeded generator.  The aggregation (outcome
counts, over-2.5/BTTS counts, goal histogram, percentages) is the
source's; the `top_scores` presentation list is omitted. -/

/-- Result of `monte_carlo_match`.  `goal_hist k` is the count of the
`str(min(total_goals, 6))` histogram bucket `k`. -/
structure MCResult where
  simulations : ℕ
  home_wins : ℕ
  draws : ℕ
  away_wins : ℕ
  over25_count : ℕ
  btts_count : ℕ
  goal_hist : ℕ → ℕ
  home_win_pct : ℚ
  draw_pct : ℚ
  away_win_pct : ℚ
  over25_pct : ℚ
  btts_pct : ℚ
  home_xg : ℚ
  away_xg : ℚ

set_option linter.unusedVariables false in
/-- `dagens_kamp.monte_carlo_match` with the per-trial Poisson draws
abstracted by `gen`.  (`draw_prob` is a parameter the source also never
reads.) -/
def monte_carlo_match (home_prob draw_prob away_prob : ℚ)
    (n_simulations : ℕ) (gen : ℕ → ℕ × ℕ) : MCResult :=
  let home_xg := max 0.3 (min 3.5 (1.2 + (home_prob - 0.33) * 2.5))
  let away_xg := max 0.3 (min 3.0 (0.9 + (away_prob - 0.33) * 2.5))
  let trials := (List.range n_simulations).map gen
  let hw := trials.countP (fun t => decide (t.1 > t.2))
  let dr := trials.countP (fun t => decide (t.1 = t.2))
  let aw := trials.countP (fun t => decide (t.1 < t.2))
  let o25 := trials.countP (fun t => decide (((t.1 + t.2 : ℕ) : ℚ) > 2.5))
  let btts := trials.countP (fun t => decide (t.1 > 0 ∧ t.2 > 0))
  { simulations := n_simulations
    home_wins := hw
    draws := dr
    away_wins := aw
    over25_count := o25
    btts_count := btts
    goal_hist := fun k => trials.countP (fun t => decide (min (t.1 + t.2) 6 = k))
    home_win_pct := pyRound 1 ((hw : ℚ) / n_simulations * 100)
    draw_pct := pyRound 1 ((dr : ℚ) / n_simulations * 100)
    away_win_pct := pyRound 1 ((aw : ℚ) / n_simulations * 100)
    over25_pct := pyRound 1 ((o25 : ℚ) / n_simulations * 100)
    btts_pct := pyRound 1 ((btts : ℚ) / n_simulations * 100)
    home_xg := pyRound 2 home_xg
    away_xg := pyRound 2 away_xg }

/-! ## Bankroll transitions (`bankroll.py`)

The ledger (`bankroll` table) stores amounts as `NUMERIC(12,2)`;
`get_current_bankroll` reads the latest amount, and each `apply_*`
appends one entry.  The transition arithmetic is modelled on the prior
balance it reads. -/

/-- `bankroll.BANKROLL_GOAL`. -/
def BANKROLL_GOAL : ℚ := 30000

/-- The dictionary each `apply_*` returns (the appended ledger entry's
amount is `after` and its change column is `profit`). -/
structure BankrollUpdate where
  before : ℚ
  after : ℚ
  profit : ℚ
  goal : ℚ
  progress_pct : ℚ

/-- `bankroll.apply_win`: compound the prior balance by the decimal
odds, rounding money to 2 decimals. -/
def apply_win (current odds : ℚ) : BankrollUpdate :=
  let new_amount := pyRound 2 (current * odds)
  let profit := pyRound 2 (new_amount - current)
  { before := current
    after := new_amount
    profit := profit
    goal := BANKROLL_GOAL
    progress_pct := min 100 (pyRound 2 (new_amount / BANKROLL_GOAL * 100)) }

/-- `bankroll.apply_loss`: balance unchanged, change 0. -/
def apply_loss (current : ℚ) : BankrollUpdate :=
  { before := current
    after := current
    profit := 0
    goal := BANKROLL_GOAL
    progress_pct := min 100 (pyRound 2 (current / BANKROLL_GOAL * 100)) }

/-- `bankroll.apply_push`: balance unchanged, change 0. -/
def apply_push (current : ℚ) : BankrollUpdate :=
  { before := current
    after := current
    profit := 0
    goal := BANKROLL_GOAL
    progress_pct := min 100 (pyRound 2 (current / BANKROLL_GOAL * 100)) }

/-! ## Claims about the result grader -/

theorem overRule_mem {s : List Char} {t : ℤ} {r : String}
    (h : overRule s t = some r) : r = "W" ∨ r = "L" ∨ r = "P" := by
  unfold overRule at h
  repeat' split at h
  all_goals simp_all

theorem underRule_mem {s : List Char} {t : ℤ} {r : String}
    (h : underRule s t = some r) : r = "W" ∨ r = "L" ∨ r = "P" := by
  unfold underRule at h
  repeat' split at h
  all_goals simp_all

theorem bttsRule_mem {s : List Char} {x y : ℤ} {r : String}
    (h : bttsRule s x y = some r) : r = "W" ∨ r = "L" ∨ r = "P" := by
  unfold bttsRule at h
  repeat' split at h
  all_goals simp_all

theorem oneXtwoRule_mem {s : List Char} {x y : ℤ} {r : String}
    (h : oneXtwoRule s x y = some r) : r = "W" ∨ r = "L" ∨ r = "P" := by
  simp only [oneXtwoRule] at h
  repeat' split at h
  all_goals simp_all

theorem ahRule_mem {s : List Char} {x y : ℤ} {r : String}
    (h : ahRule s x y = some r) : r = "W" ∨ r = "L" ∨ r = "P" := by
  unfold ahRule at h
  repeat' split at h
  all_goals simp_all

theorem orRes_mem {o : Option String} {f : String}
    (ho : ∀ r, o = some r → (r = "W" ∨ r = "L" ∨ r = "P"))
    (hf : f = "W" ∨ f = "L" ∨ f = "P") :
    orRes o f = "W" ∨ orRes o f = "L" ∨ orRes o f = "P" := by
  cases o with
  | none => simpa [orRes] using hf
  | some r => simpa [orRes] using ho r rfl

/-- C9: `determine_result` is total: for every pick string and every
pair of integer scores it returns exactly one of `"W"`, `"L"`, `"P"`;
the numeric parses in the totals and Asian-handicap rules are modelled
as `Option` (the source catches `ValueError`/`Exception`), so a parse
failure falls through instead of aborting. -/
theorem determine_result_total (pick : String) (home_score away_score : ℤ) :
    determine_result pick home_score away_score = "W"
    ∨ determine_result pick home_score away_score = "L"
    ∨ determine_result pick home_score away_score = "P" := by
  simp only [determine_result]
  apply orRes_mem (fun r h => overRule_mem h)
  apply orRes_mem (fun r h => underRule_mem h)
  apply orRes_mem (fun r h => bttsRule_mem h)
  apply orRes_mem (fun r h => oneXtwoRule_mem h)
  apply orRes_mem (fun r h => ahRule_mem h)
  simp

/-- C1: the spec's grading example demands Win for the draw pick
"Uavgjort" with final score 1–1, and the pipeline really stores
"Uavgjort" as the draw pick label; but "uavgjort" contains none of the
tokens "1"/"x"/"2", so no 1X2 rule matches and the code falls through
to the Push fallback.  This evaluates the code at the failing input. -/
theorem determine_result_uavgjort_push : determine_result "Uavgjort" 1 1 = "P" := by rfl

theorem overRule_eq_none {s : List Char} {t : ℤ}
    (h : containsSub (chars "over") s = true →
      parseFloat (pyStrip (eraseAll (chars "over") s)) = none) :
    overRule s t = none := by
  unfold overRule
  cases hb : containsSub (chars "over") s with
  | false => simp [hb]
  | true => simp [hb, h hb]

theorem underRule_eq_none {s : List Char} {t : ℤ}
    (h : containsSub (chars "under") s = true →
      parseFloat (pyStrip (eraseAll (chars "under") s)) = none) :
    underRule s t = none := by
  unfold underRule
  cases hb : containsSub (chars "under") s with
  | false => simp [hb]
  | true => simp [hb, h hb]

theorem bttsRule_eq_none {s : List Char} {x y : ℤ}
    (h1 : containsSub (chars "btts") s = false)
    (h2 : containsSub (chars "begge lag scorer") s = false)
    (h3 : containsSub (chars "both teams") s = false) :
    bttsRule s x y = none := by
  simp [bttsRule, h1, h2, h3]

theorem oneXtwoRule_eq_none {s : List Char} {x y : ℤ}
    (h1 : (containsSub (chars "1") s && !containsSub (chars "x") s
        && !containsSub (chars "2") s) = false)
    (h2 : (containsSub (chars "x") s && !containsSub (chars "1") s
        && !containsSub (chars "2") s) = false)
    (h3 : (containsSub (chars "2") s && !containsSub (chars "x") s
        && !containsSub (chars "1") s) = false)
    (h4 : (containsSub (chars "1x") s || containsSub (chars "double chance 1x") s) = false)
    (h5 : (containsSub (chars "x2") s || containsSub (chars "double chance x2") s) = false)
    (h6 : (containsSub (chars "12") s || containsSub (chars "double chance 12") s) = false) :
    oneXtwoRule s x y = none := by
  simp only [oneXtwoRule]
  rw [h1, h2, h3, h4, h5, h6]
  simp

theorem ahRule_eq_none {s : List Char} {x y : ℤ}
    (h : (containsSub (chars "handicap") s || containsSub (chars "ah") s) = true →
      (containsSub (chars "home") s || containsSub (chars "1") s) = true →
      Option.bind (ahLineText s) parseFloat = none) :
    ahRule s x y = none := by
  unfold ahRule
  cases hb : (containsSub (chars "handicap") s || containsSub (chars "ah") s) with
  | false => simp [hb]
  | true =>
    cases hc : (containsSub (chars "home") s || containsSub (chars "1") s) with
    | false => simp [hb, hc]
    | true => simp [hb, hc, h hb hc]

/-- C7: a pick text matching no grading rule — no parseable totals
line, no BTTS marker, no exclusive or composite 1X2 token, no parseable
Asian-handicap reference — is graded Push by the fallback. -/
theorem determine_result_unmatched_push (pick : String) (home_score away_score : ℤ)
    (hov : containsSub (chars "over") (normalizePick pick) = true →
      parseFloat (pyStrip (eraseAll (chars "over") (normalizePick pick))) = none)
    (hun : containsSub (chars "under") (normalizePick pick) = true →
      parseFloat (pyStrip (eraseAll (chars "under") (normalizePick pick))) = none)
    (hb1 : containsSub (chars "btts") (normalizePick pick) = false)
    (hb2 : containsSub (chars "begge lag scorer") (normalizePick pick) = false)
    (hb3 : containsSub (chars "both teams") (normalizePick pick) = false)
    (h1 : (containsSub (chars "1") (normalizePick pick)
        && !containsSub (chars "x") (normalizePick pick)
        && !containsSub (chars "2") (normalizePick pick)) = false)
    (h2 : (containsSub (chars "x") (normalizePick pick)
        && !containsSub (chars "1") (normalizePick pick)
        && !containsSub (chars "2") (normalizePick pick)) = false)
    (h3 : (containsSub (chars "2") (normalizePick pick)
        && !containsSub (chars "x") (normalizePick pick)
        && !containsSub (chars "1") (normalizePick pick)) = false)
    (h4 : (containsSub (chars "1x") (normalizePick pick)
        || containsSub (chars "double chance 1x") (normalizePick pick)) = false)
    (h5 : (containsSub (chars "x2") (normalizePick pick)
        || containsSub (chars "double chance x2") (normalizePick pick)) = false)
    (h6 : (containsSub (chars "12") (normalizePick pick)
        || containsSub (chars "double chance 12") (normalizePick pick)) = false)
    (hah : (containsSub (chars "handicap") (normalizePick pick)
        || containsSub (chars "ah") (normalizePick pick)) = true →
      (containsSub (chars "home") (normalizePick pick)
        || containsSub (chars "1") (normalizePick pick)) = true →
      Option.bind (ahLineText (normalizePick pick)) parseFloat = none) :
    determine_result pick home_score away_score = "P" := by
  simp only [determine_result]
  rw [overRule_eq_none hov, orRes_none, underRule_eq_none hun, orRes_none,
    bttsRule_eq_none hb1 hb2 hb3, orRes_none,
    oneXtwoRule_eq_none h1 h2 h3 h4 h5 h6, orRes_none,
    ahRule_eq_none hah, orRes_none]

theorem determine_result_unmatched_push_witness :
    determine_result "hello" 2 1 = "P" :=
  determine_result_unmatched_push "hello" 2 1 (by decide) (by decide) (by decide)
    (by decide) (by decide) (by decide) (by decide) (by decide) (by decide)
    (by decide) (by decide) (by decide)

set_option linter.unusedVariables false in
/-- C2: the stored totals label "Over 2.5 mål" fails the totals parse
(the line text "2.5 mål" is not a float), so grading falls through to
the exclusive "2"-token 1X2 rule: Win iff the away side scored more,
otherwise Loss, regardless of total goals. -/
theorem determine_result_over25_label_graded_as_2 (home_score away_score : ℤ)
    (hh : 0 ≤ home_score) (ha : 0 ≤ away_score) :
    determine_result "Over 2.5 mål" home_score away_score =
      if home_score < away_score then "W" else "L" := by
  have ho : overRule (normalizePick "Over 2.5 mål") (home_score + away_score) = none := by rfl
  have hu : underRule (normalizePick "Over 2.5 mål") (home_score + away_score) = none := by rfl
  have hb : bttsRule (normalizePick "Over 2.5 mål") home_score away_score = none := by rfl
  have h12 : oneXtwoRule (normalizePick "Over 2.5 mål") home_score away_score
      = some (if actualSymbol home_score away_score = "2" then "W" else "L") := by rfl
  simp only [determine_result]
  rw [ho, orRes_none, hu, orRes_none, hb, orRes_none, h12, orRes_some]
  by_cases hlt : home_score < away_score
  · have hact : actualSymbol home_score away_score = "2" := by
      unfold actualSymbol
      rw [if_neg (by omega), if_neg (by omega)]
    rw [hact, if_pos rfl, if_pos hlt]
  · have hact : actualSymbol home_score away_score ≠ "2" := by
      unfold actualSymbol
      split_ifs with hgt heq
      · decide
      · decide
      · exact absurd (by omega : home_score < away_score) hlt
    rw [if_neg hact, if_neg hlt]

theorem determine_result_over25_label_witness :
    determine_result "Over 2.5 mål" 1 2 = "W" := by
  have h := determine_result_over25_label_graded_as_2 1 2 (by norm_num) (by norm_num)
  rw [if_pos (by norm_num : (1 : ℤ) < 2)] at h
  exact h

/-! ## Claims about the bankroll transitions -/

/-- C6: for every ledger balance (the `bankroll.amount` column is
`NUMERIC(12,2)`, i.e. an integer number of hundredths) and decimal
odds, `apply_win` yields balance `round(prior × odds, 2)` whose change
is exactly `new − prior`, while `apply_loss` and `apply_push` keep the
balance with change 0; in particular a win on balance 100 at odds 2.0
gives balance 200.00 and profit 100.00. -/
theorem bankroll_transitions (prior odds : ℚ) (hledger : ∃ n : ℤ, prior = n / 100) :
    (apply_win prior odds).after = pyRound 2 (prior * odds)
    ∧ (apply_win prior odds).profit = (apply_win prior odds).after - prior
    ∧ (apply_loss prior).after = prior
    ∧ (apply_loss prior).profit = 0
    ∧ (apply_push prior).after = prior
    ∧ (apply_push prior).profit = 0
    ∧ (apply_win 100 2).after = 200
    ∧ (apply_win 100 2).profit = 100 := by
  obtain ⟨n, hn⟩ := hledger
  have h200 : pyRound 2 ((100 : ℚ) * 2) = 200 := by
    rw [show ((100 : ℚ) * 2) = ((200 : ℕ) : ℚ) by norm_num, pyRound_natCast]
    norm_num
  refine ⟨rfl, ?_, rfl, rfl, rfl, rfl, h200, ?_⟩
  · show pyRound 2 (pyRound 2 (prior * odds) - prior) = pyRound 2 (prior * odds) - prior
    have key : pyRound 2 (prior * odds) - prior
        = ((rhe (prior * odds * 10 ^ 2) - n : ℤ) : ℚ) / 10 ^ 2 := by
      rw [pyRound, hn]; push_cast; ring
    rw [key, pyRound_scaled_int]
  · show pyRound 2 (pyRound 2 ((100 : ℚ) * 2) - 100) = 100
    rw [h200, show (200 : ℚ) - 100 = ((100 : ℕ) : ℚ) by norm_num, pyRound_natCast]
    norm_num

theorem bankroll_transitions_witness :
    (apply_win 100 2).after = 200 ∧ (apply_win 100 2).profit = 100 :=
  ⟨(bankroll_transitions 100 2 ⟨10000, by norm_num⟩).2.2.2.2.2.2.1,
   (bankroll_transitions 100 2 ⟨10000, by norm_num⟩).2.2.2.2.2.2.2⟩

/-! ## Claims about the Monte Carlo simulator -/

theorem countP_outcomes (l : List (ℕ × ℕ)) :
    l.countP (fun t => decide (t.1 > t.2)) + l.countP (fun t => decide (t.1 = t.2))
      + l.countP (fun t => decide (t.1 < t.2)) = l.length := by
  induction l with
  | nil => rfl
  | cons t l ih =>
    simp only [List.countP_cons, List.length_cons, decide_eq_true_eq]
    split_ifs <;> omega

theorem countP_hist (l : List (ℕ × ℕ)) :
    ∑ k ∈ Finset.range 7, l.countP (fun t => decide (min (t.1 + t.2) 6 = k))
      = l.length := by
  induction l with
  | nil => simp
  | cons t l ih =>
    have hb : min (t.1 + t.2) 6 ∈ Finset.range 7 :=
      Finset.mem_range.mpr (Nat.lt_succ_of_le (Nat.min_le_right _ _))
    simp only [List.countP_cons, decide_eq_true_eq, List.length_cons]
    rw [Finset.sum_add_distrib, ih,
      Finset.sum_ite_eq (Finset.range 7) (min (t.1 + t.2) 6) (fun _ => 1),
      if_pos hb]

theorem pct_of_count (c : ℕ) :
    pyRound 1 ((c : ℚ) / ((100 : ℕ) : ℚ) * 100) = c := by
  have h : (c : ℚ) / ((100 : ℕ) : ℚ) * 100 = (c : ℚ) := by
    push_cast
    exact div_mul_cancel₀ (c : ℚ) (by norm_num)
  rw [h, pyRound_natCast]

/-- C5: for every run of `monte_carlo_match` with N = 100 trials (any
probability inputs, any realization `gen` of the unseeded Poisson
draws), the outcome counts sum exactly to 100, the goal-histogram
buckets sum exactly to 100, and the three outcome percentages sum to
100 within ±0.1 (with N = 100 they are in fact exact). -/
theorem monte_carlo_match_consistency (home_prob draw_prob away_prob : ℚ)
    (gen : ℕ → ℕ × ℕ) :
    (monte_carlo_match home_prob draw_prob away_prob 100 gen).home_wins
      + (monte_carlo_match home_prob draw_prob away_prob 100 gen).draws
      + (monte_carlo_match home_prob draw_prob away_prob 100 gen).away_wins = 100
    ∧ ∑ k ∈ Finset.range 7,
        (monte_carlo_match home_prob draw_prob away_prob 100 gen).goal_hist k = 100
    ∧ |(monte_carlo_match home_prob draw_prob away_prob 100 gen).home_win_pct
      + (monte_carlo_match home_prob draw_prob away_prob 100 gen).draw_pct
      + (monte_carlo_match home_prob draw_prob away_prob 100 gen).away_win_pct
      - 100| ≤ 1/10 := by
  have hlen : ((List.range 100).map gen).length = 100 := by simp
  have hcnt := countP_outcomes ((List.range 100).map gen)
  rw [hlen] at hcnt
  have hhist := countP_hist ((List.range 100).map gen)
  rw [hlen] at hhist
  simp only [monte_carlo_match]
  refine ⟨hcnt, hhist, ?_⟩
  rw [pct_of_count, pct_of_count, pct_of_count]
  have h100 : (((List.range 100).map gen).countP (fun t => decide (t.1 > t.2)) : ℚ)
      + ((List.range 100).map gen).countP (fun t => decide (t.1 = t.2))
      + ((List.range 100).map gen).countP (fun t => decide (t.1 < t.2)) = 100 := by
    exact_mod_cast hcnt
  rw [h100]
  norm_num

/-! ## Claims about the probability normalizer -/

/-- C3 counterexample: at odds (3, 3, 3) each normalized probability is
`round(1/3, 4) = 0.3333`, so the three sum to 0.9999 — off from 1 by
10⁻⁴, outside the claimed 10⁻⁶ tolerance. -/
theorem remove_vig_sum_counterexample :
    (remove_vig 3 3 3).home + (remove_vig 3 3 3).draw + (remove_vig 3 3 3).away
      = 9999/10000
    ∧ ¬ |(remove_vig 3 3 3).home + (remove_vig 3 3 3).draw + (remove_vig 3 3 3).away
        - 1| ≤ 1/1000000 := by
  have hval : pyRound 4 ((1 : ℚ)/3 / (1/3 + 1/3 + 1/3)) = 3333/10000 := by
    rw [show (1 : ℚ)/3 / (1/3 + 1/3 + 1/3) = 1/3 by norm_num,
      pyRound_eq_low 4 (1/3) 3333 (by norm_num) (by norm_num)]
    norm_num
  have hh : (remove_vig 3 3 3).home = 3333/10000 := hval
  have hd : (remove_vig 3 3 3).draw = 3333/10000 := hval
  have ha : (remove_vig 3 3 3).away = 3333/10000 := hval
  refine ⟨by rw [hh, hd, ha]; norm_num, ?_⟩
  rw [hh, hd, ha,
    show (3333/10000 : ℚ) + 3333/10000 + 3333/10000 - 1 = -(1/10000) by norm_num,
    abs_neg, abs_of_pos (by norm_num : (0 : ℚ) < 1/10000)]
  norm_num

set_option linter.unusedVariables false in
/-- C3 (amended): for odds each > 1 the normalized probabilities sum to
1 within 1.5×10⁻⁴ (each output is rounded to 4 decimals, so the sum can
be off by up to 3 × 1/20000; the claimed 10⁻⁶ is too tight), and `vig`
is the claimed formula rounded to 2 decimals, hence within 0.005 of it;
at (2, 3.4, 4) the probabilities sum to exactly 1 and vig > 0. -/
theorem remove_vig_sum_close (h d a : ℚ) (hh : 1 < h) (hd : 1 < d) (ha : 1 < a) :
    |(remove_vig h d a).home + (remove_vig h d a).draw + (remove_vig h d a).away - 1|
      ≤ 3/20000
    ∧ (remove_vig h d a).vig = pyRound 2 ((1/h + 1/d + 1/a - 1) * 100)
    ∧ |(remove_vig h d a).vig - (1/h + 1/d + 1/a - 1) * 100| ≤ 1/200
    ∧ (remove_vig 2 3.4 4).home + (remove_vig 2 3.4 4).draw
        + (remove_vig 2 3.4 4).away = 1
    ∧ 0 < (remove_vig 2 3.4 4).vig := by
  have hT : (0 : ℚ) < 1/h + 1/d + 1/a := by positivity
  have hT' : (1/h + 1/d + 1/a : ℚ) ≠ 0 := ne_of_gt hT
  have hsum : 1/h / (1/h + 1/d + 1/a) + 1/d / (1/h + 1/d + 1/a)
      + 1/a / (1/h + 1/d + 1/a) = 1 := by
    field_simp
    ring
  have e1 := abs_pyRound_sub 4 (1/h / (1/h + 1/d + 1/a))
  have e2 := abs_pyRound_sub 4 (1/d / (1/h + 1/d + 1/a))
  have e3 := abs_pyRound_sub 4 (1/a / (1/h + 1/d + 1/a))
  have hden : (1 : ℚ) / (2 * 10 ^ 4) = 1/20000 := by norm_num
  rw [hden] at e1 e2 e3
  refine ⟨?_, rfl, ?_, ?_, ?_⟩
  · show |pyRound 4 (1/h / (1/h + 1/d + 1/a)) + pyRound 4 (1/d / (1/h + 1/d + 1/a))
      + pyRound 4 (1/a / (1/h + 1/d + 1/a)) - 1| ≤ 3/20000
    set p1 := 1/h / (1/h + 1/d + 1/a) with hp1
    set p2 := 1/d / (1/h + 1/d + 1/a) with hp2
    set p3 := 1/a / (1/h + 1/d + 1/a) with hp3
    have key : pyRound 4 p1 + pyRound 4 p2 + pyRound 4 p3 - 1
        = (pyRound 4 p1 - p1) + ((pyRound 4 p2 - p2) + (pyRound 4 p3 - p3)) := by
      linear_combination hsum
    rw [key]
    have t1 := abs_add (pyRound 4 p1 - p1) ((pyRound 4 p2 - p2) + (pyRound 4 p3 - p3))
    have t2 := abs_add (pyRound 4 p2 - p2) (pyRound 4 p3 - p3)
    linarith [e1, e2, e3]
  · show |pyRound 2 ((1/h + 1/d + 1/a - 1) * 100) - (1/h + 1/d + 1/a - 1) * 100| ≤ 1/200
    have := abs_pyRound_sub 2 ((1/h + 1/d + 1/a - 1) * 100)
    have h200 : (1 : ℚ) / (2 * 10 ^ 2) = 1/200 := by norm_num
    rw [h200] at this
    exact this
  · show pyRound 4 ((1 : ℚ)/2 / (1/2 + 1/3.4 + 1/4)) + pyRound 4 ((1 : ℚ)/3.4 / (1/2 + 1/3.4 + 1/4))
      + pyRound 4 ((1 : ℚ)/4 / (1/2 + 1/3.4 + 1/4)) = 1
    rw [show (1 : ℚ)/2 / (1/2 + 1/3.4 + 1/4) = 34/71 by norm_num,
      show (1 : ℚ)/3.4 / (1/2 + 1/3.4 + 1/4) = 20/71 by norm_num,
      show (1 : ℚ)/4 / (1/2 + 1/3.4 + 1/4) = 17/71 by norm_num,
      pyRound_eq_high 4 (34/71) 4788 (by norm_num) (by norm_num) (by norm_num),
      pyRound_eq_high 4 (20/71) 2816 (by norm_num) (by norm_num) (by norm_num),
      pyRound_eq_low 4 (17/71) 2394 (by norm_num) (by norm_num)]
    norm_num
  · show (0 : ℚ) < pyRound 2 ((1/2 + 1/3.4 + 1/4 - 1) * 100)
    rw [show ((1 : ℚ)/2 + 1/3.4 + 1/4 - 1) * 100 = 75/17 by norm_num,
      pyRound_eq_low 2 (75/17) 441 (by norm_num) (by norm_num)]
    norm_num

theorem remove_vig_sum_close_witness :
    |(remove_vig 2 3.4 4).home + (remove_vig 2 3.4 4).draw
      + (remove_vig 2 3.4 4).away - 1| ≤ 3/20000 :=
  (remove_vig_sum_close 2 3.4 4 (by norm_num) (by norm_num) (by norm_num)).1

/-! ## Claims about the selection score -/

/-- C4 counterexample: with every other factor fixed, the selection
score is flat in EV below zero — the candidates with EV −2 and EV −1
get the same score — refuting strict monotonicity for arbitrary
ev1 < ev2. -/
theorem score_match_flat_on_negative_ev :
    (-2 : ℚ) < -1
    ∧ ¬ score_match_for_selection ⟨0.3, 0.3, -2, 50, 1, 24⟩
        < score_match_for_selection ⟨0.3, 0.3, -1, 50, 1, 24⟩ := by
  have heq : score_match_for_selection ⟨0.3, 0.3, -2, 50, 1, 24⟩
      = score_match_for_selection ⟨0.3, 0.3, -1, 50, 1, 24⟩ := by
    simp only [score_match_for_selection]
    norm_num [max_def]
  exact ⟨by norm_num, by rw [heq]; exact lt_irrefl _⟩

/-- C4 (amended): the selection score is strictly increasing in EV with
slope exactly 3 per EV percentage point on the region EV ≥ 0 (the
`max(0, ev)` term is flat below zero): for 0 ≤ ev1 < ev2 with all other
factors fixed, score(ev2) = score(ev1) + 3·(ev2 − ev1) > score(ev1). -/
theorem score_match_increasing_in_ev (m : MatchData) (ev1 ev2 : ℚ)
    (h0 : 0 ≤ ev1) (h12 : ev1 < ev2) :
    score_match_for_selection { m with best_ev := ev2 }
      = score_match_for_selection { m with best_ev := ev1 } + 3 * (ev2 - ev1)
    ∧ score_match_for_selection { m with best_ev := ev1 }
      < score_match_for_selection { m with best_ev := ev2 } := by
  have hm1 : max 0 ev1 = ev1 := max_eq_right h0
  have hm2 : max 0 ev2 = ev2 := max_eq_right (le_of_lt (lt_of_le_of_lt h0 h12))
  have heq : score_match_for_selection { m with best_ev := ev2 }
      = score_match_for_selection { m with best_ev := ev1 } + 3 * (ev2 - ev1) := by
    simp only [score_match_for_selection]
    rw [hm1, hm2]
    ring
  exact ⟨heq, by rw [heq]; linarith⟩

theorem score_match_increasing_in_ev_witness :
    score_match_for_selection ⟨0.5, 0.3, 1, 60, 3, 30⟩
      < score_match_for_selection ⟨0.5, 0.3, 2, 60, 3, 30⟩ :=
  (score_match_increasing_in_ev ⟨0.5, 0.3, 0, 60, 3, 30⟩ 1 2
    (by norm_num) (by norm_num)).2

/-! ## Claims about the derived market estimators -/

theorem pyRound_clamp_lo (nd : ℕ) (A : ℤ) (a x : ℚ) (ha : a = (A : ℚ) / 10 ^ nd)
    (hax : a ≤ x) : a ≤ pyRound nd x := by
  rw [ha] at hax ⊢
  exact le_pyRound hax

theorem pyRound_clamp_hi (nd : ℕ) (B : ℤ) (b x : ℚ) (hb : b = (B : ℚ) / 10 ^ nd)
    (hxb : x ≤ b) : pyRound nd x ≤ b := by
  rw [hb] at hxb ⊢
  exact pyRound_le hxb

/-- C8 counterexample: the outputs are the clamped formulas rounded to
4 decimals, not the raw clamped formulas: at inputs (0.2345, 0, 0) the
code returns `implied_over25 = 0.4485` while the claim's formula gives
0.44849. -/
theorem implied_over25_rounding_counterexample :
    implied_over25 0.2345 0 0
      ≠ min 0.88 (max 0.28 (0.35 + (0.2345 + 0) * 0.42 - 0 * 0.15)) := by
  have hc : min (0.88 : ℚ) (max 0.28 (0.35 + (0.2345 + 0) * 0.42 - 0 * 0.15))
      = 44849/100000 := by
    rw [show (0.35 : ℚ) + (0.2345 + 0) * 0.42 - 0 * 0.15 = 44849/100000 by norm_num,
      max_eq_right (by norm_num : (0.28 : ℚ) ≤ 44849/100000),
      min_eq_right (by norm_num : (44849/100000 : ℚ) ≤ 0.88)]
  simp only [implied_over25]
  rw [hc, pyRound_eq_high 4 (44849/100000) 4484 (by norm_num) (by norm_num) (by norm_num)]
  norm_num

set_option linter.unusedVariables false in
/-- C8 (amended): for all probability inputs in [0, 1], `implied_over25`
equals the clamped formula rounded to 4 decimals and lies in
[0.28, 0.88], and `implied_btts` equals its clamped formula rounded to
4 decimals and lies in [0.25, 0.82]. -/
theorem implied_markets_clamped (home_prob draw_prob away_prob : ℚ)
    (h1 : 0 ≤ home_prob) (h2 : home_prob ≤ 1) (h3 : 0 ≤ draw_prob) (h4 : draw_prob ≤ 1)
    (h5 : 0 ≤ away_prob) (h6 : away_prob ≤ 1) :
    implied_over25 home_prob draw_prob away_prob
      = pyRound 4 (min 0.88 (max 0.28 (0.35 + (home_prob + away_prob) * 0.42
          - draw_prob * 0.15)))
    ∧ 0.28 ≤ implied_over25 home_prob draw_prob away_prob
    ∧ implied_over25 home_prob draw_prob away_prob ≤ 0.88
    ∧ implied_btts home_prob draw_prob away_prob
      = pyRound 4 (min 0.82 (max 0.25 (0.30 + (1 - |home_prob - away_prob|) * 0.35
          + draw_prob * 0.3)))
    ∧ 0.25 ≤ implied_btts home_prob draw_prob away_prob
    ∧ implied_btts home_prob draw_prob away_prob ≤ 0.82 := by
  refine ⟨rfl, ?_, ?_, rfl, ?_, ?_⟩
  · show (0.28 : ℚ) ≤ pyRound 4 (min 0.88 (max 0.28 (0.35
      + (home_prob + away_prob) * 0.42 - draw_prob * 0.15)))
    exact pyRound_clamp_lo 4 2800 _ _ (by norm_num)
      (le_min (by norm_num) (le_max_left _ _))
  · show pyRound 4 (min 0.88 (max 0.28 (0.35
      + (home_prob + away_prob) * 0.42 - draw_prob * 0.15))) ≤ 0.88
    exact pyRound_clamp_hi 4 8800 _ _ (by norm_num) (min_le_left _ _)
  · show (0.25 : ℚ) ≤ pyRound 4 (min 0.82 (max 0.25 (0.30
      + (1 - |home_prob - away_prob|) * 0.35 + draw_prob * 0.3)))
    exact pyRound_clamp_lo 4 2500 _ _ (by norm_num)
      (le_min (by norm_num) (le_max_left _ _))
  · show pyRound 4 (min 0.82 (max 0.25 (0.30
      + (1 - |home_prob - away_prob|) * 0.35 + draw_prob * 0.3))) ≤ 0.82
    exact pyRound_clamp_hi 4 8200 _ _ (by norm_num) (min_le_left _ _)

theorem implied_markets_clamped_witness :
    (0.28 : ℚ) ≤ implied_over25 0.5 0.2 0.3
    ∧ implied_btts 0.5 0.2 0.3 ≤ 0.82 :=
  ⟨(implied_markets_clamped 0.5 0.2 0.3 (by norm_num) (by norm_num) (by norm_num)
      (by norm_num) (by norm_num) (by norm_num)).2.1,
   (implied_markets_clamped 0.5 0.2 0.3 (by norm_num) (by norm_num) (by norm_num)
      (by norm_num) (by norm_num) (by norm_num)).2.2.2.2.2⟩

/-- C10 counterexample: at home 0.1911, away 0.1111 (difference exactly
0.08) the away-favourite branch is taken, but `away_ah` is the
discounted probability rounded to 4 decimals (0.1084), not the raw
product 0.1084336 stated by the claim. -/
theorem implied_ah_away_rounding_counterexample :
    (implied_asian_handicap 0.1911 0.1111).line = "Away +0.5"
    ∧ (implied_asian_handicap 0.1911 0.1111).away_ah ≠ 0.1111 * (1 - 0.08 * 0.3) := by
  have hdiff : (0.1911 : ℚ) - 0.1111 = 0.08 := by norm_num
  have habs : |(0.08 : ℚ)| = 0.08 := by norm_num
  simp only [implied_asian_handicap, hdiff, habs]
  rw [if_neg (by norm_num : ¬((0.08 : ℚ) < 0.08)),
    if_neg (by norm_num : ¬((0.08 : ℚ) > 0.08))]
  constructor
  · rw [if_pos (by norm_num : (0.08 : ℚ) < 0.20)]
    rfl
  · rw [show (0.1111 : ℚ) * (1 - (0.08 : ℚ) * 0.3) = 1084336/10000000 by norm_num,
      pyRound_eq_low 4 (1084336/10000000) 1084 (by norm_num) (by norm_num)]
    norm_num

/-- C10 (amended): at the boundary `home_prob − away_prob = 0.08`
(excluded from both the Draw-No-Bet case and the home-favourite case)
the away-favourite branch fires: line "Away +0.5", label
"Away +0.5 AH", and `away_ah = round(away_prob × (1 − 0.08×0.3), 4)`,
labelling away the favourite even though `home_prob > away_prob`. -/
theorem implied_ah_boundary_away (home_prob away_prob : ℚ)
    (h : home_prob - away_prob = 0.08) :
    (implied_asian_handicap home_prob away_prob).line = "Away +0.5"
    ∧ (implied_asian_handicap home_prob away_prob).label = "Away +0.5 AH"
    ∧ (implied_asian_handicap home_prob away_prob).away_ah
      = pyRound 4 (away_prob * (1 - 0.08 * 0.3))
    ∧ away_prob < home_prob := by
  have habs : |(0.08 : ℚ)| = 0.08 := by norm_num
  simp only [implied_asian_handicap, h, habs]
  rw [if_neg (by norm_num : ¬((0.08 : ℚ) < 0.08)),
    if_neg (by norm_num : ¬((0.08 : ℚ) > 0.08))]
  refine ⟨?_, ?_, ?_, by linarith⟩
  · rw [if_pos (by norm_num : (0.08 : ℚ) < 0.20)]
    rfl
  · rw [if_pos (by norm_num : (0.08 : ℚ) < 0.20)]
    rfl
  · rfl

theorem implied_ah_boundary_away_witness :
    (implied_asian_handicap 0.4 0.32).line = "Away +0.5" :=
  (implied_ah_boundary_away 0.4 0.32 (by norm_num)).1

end Sesomnod
